import Mathlib

/-!
Verification of the Solana X402 Payment Protocol TypeScript client
(client/payment-client.ts) against its natural-language specification.

Shallow embedding conventions:
* bytes are `Nat` values (each meaningful byte is below 256); byte buffers
  are `List Nat`;
* 32-byte public keys and derived addresses are `List Nat` of length 32;
* JavaScript strings appear through their UTF-8 byte sequences (`List Nat`),
  since every construct of the client touches only those bytes;
* unsigned 64-bit integers are `Nat` with explicit bounds, signed 64-bit
  integers are `Int` with explicit bounds and two-complement byte encoding;
* the on-chain program (src/lib.rs) is not part of the sources; where a
  property is decided by it, the processor is modelled from the
  specification and marked as such.
-/

namespace X402

/-! ## Little-endian byte encodings (Buffer.writeBigUInt64LE / writeUInt32LE) -/

/-- Little-endian byte list of a natural number, `k` bytes wide
(the value is taken modulo 2 ^ (8 k)). -/
def natToLEBytes : Nat → Nat → List Nat
  | 0, _ => []
  | Nat.succ k, n => n % 256 :: natToLEBytes k (n / 256)

/-- Value of a little-endian byte list. -/
def leBytesToNat : List Nat → Nat
  | [] => 0
  | b :: bs => b + 256 * leBytesToNat bs

theorem natToLEBytes_length (k n : Nat) : (natToLEBytes k n).length = k := by
  induction k generalizing n with
  | zero => rfl
  | succ k ih => simp [natToLEBytes, ih]

theorem leBytesToNat_natToLEBytes (k n : Nat) :
    leBytesToNat (natToLEBytes k n) = n % 2 ^ (8 * k) := by
  induction k generalizing n with
  | zero => simp [natToLEBytes, leBytesToNat, Nat.mod_one]
  | succ k ih =>
      have hpow : 2 ^ (8 * (k + 1)) = 256 * 2 ^ (8 * k) := by
        rw [Nat.mul_add, Nat.pow_add]
        ring
      rw [natToLEBytes, leBytesToNat, ih, hpow, Nat.mod_mul]

theorem leBytesToNat_natToLEBytes_of_lt {k n : Nat} (h : n < 2 ^ (8 * k)) :
    leBytesToNat (natToLEBytes k n) = n := by
  rw [leBytesToNat_natToLEBytes, Nat.mod_eq_of_lt h]

/-- Two-complement little-endian encoding of a signed 64-bit integer
(Buffer.writeBigInt64LE semantics). -/
def intToLEBytes8 (t : Int) : List Nat :=
  natToLEBytes 8 (t % (2 ^ 64 : Nat)).toNat

/-- Signed interpretation of an 8-byte little-endian buffer. -/
def leBytesToInt8 (bs : List Nat) : Int :=
  let n := leBytesToNat bs
  if n < 2 ^ 63 then (n : Int) else (n : Int) - 2 ^ 64

theorem leBytesToInt8_intToLEBytes8 {t : Int}
    (hlo : -(2 ^ 63) ≤ t) (hhi : t < 2 ^ 63) :
    leBytesToInt8 (intToLEBytes8 t) = t := by
  have hmod : (0 : Int) ≤ t % (2 ^ 64 : Nat) ∧ t % (2 ^ 64 : Nat) < 2 ^ 64 := by
    constructor
    · exact Int.emod_nonneg t (by norm_num)
    · have := Int.emod_lt_of_pos t (b := ((2 ^ 64 : Nat) : Int)) (by norm_num)
      simpa using this
  have hlt : (t % (2 ^ 64 : Nat)).toNat < 2 ^ (8 * 8) := by
    have := hmod.2
    omega
  rw [intToLEBytes8, leBytesToInt8]
  rw [leBytesToNat_natToLEBytes_of_lt hlt]
  have h64 : t % (2 ^ 64 : Nat) = t % (2 ^ 64 : Int) := by norm_num
  have hchar : t % (2 ^ 64 : Int) = t ∨ t % (2 ^ 64 : Int) = t + 2 ^ 64 := by
    omega
  rcases hchar with hc | hc <;> · simp only [h64, hc]; split <;> omega

/-! ## The Payment record (class Payment, lines 36-73) -/

/-- The Payment account structure of the client. `payer` and `recipient`
are the 32 raw bytes of the public keys, `payment_id` is the UTF-8 byte
sequence of the identifier string, `status` is the numeric value of the
PaymentStatus enum, left unconstrained exactly as the TypeScript number is. -/
structure Payment where
  payer : List Nat
  recipient : List Nat
  amount : Nat
  payment_id : List Nat
  status : Nat
  timestamp : Int
deriving DecidableEq, Repr

/-- Numeric values of the PaymentStatus enum (lines 15-19). -/
def PaymentStatus.Pending : Nat := 0

/-- Numeric value of the Completed status. -/
def PaymentStatus.Completed : Nat := 1

/-- Numeric value of the Cancelled status. -/
def PaymentStatus.Cancelled : Nat := 2

/-! ## Borsh codec for Payment (PaymentSchema, lines 76-91)

The schema lists, in order: payer as a fixed 32-byte array, recipient as a
fixed 32-byte array, amount as u64, payment_id as a length-prefixed string,
status as u8, timestamp as i64. Borsh writes fields consecutively with no
padding; u64/u32/i64 are little-endian; a string is a 4-byte little-endian
length followed by its UTF-8 bytes. -/

/-- Borsh serialization of a Payment record under PaymentSchema. -/
def encodePayment (p : Payment) : List Nat :=
  p.payer ++ p.recipient ++ natToLEBytes 8 p.amount ++
    natToLEBytes 4 p.payment_id.length ++ p.payment_id ++
    [p.status] ++ intToLEBytes8 p.timestamp

/-- Read exactly `k` bytes from the front of a buffer; fails on a short
buffer (borsh reader semantics). -/
def readBytes (k : Nat) (bs : List Nat) : Option (List Nat × List Nat) :=
  if k ≤ bs.length then some (bs.take k, bs.drop k) else none

/-- Borsh deserialization of a Payment record under PaymentSchema.
Fails (the TypeScript call throws) on a truncated buffer, on a length
prefix pointing past the end, and on trailing bytes after the record. -/
def decodePayment (bs : List Nat) : Option Payment := do
  let (payer, r1) ← readBytes 32 bs
  let (recipient, r2) ← readBytes 32 r1
  let (amountB, r3) ← readBytes 8 r2
  let (lenB, r4) ← readBytes 4 r3
  let (pid, r5) ← readBytes (leBytesToNat lenB) r4
  let (stB, r6) ← readBytes 1 r5
  let (tsB, r7) ← readBytes 8 r6
  if r7 = [] then
    some ⟨payer, recipient, leBytesToNat amountB, pid,
      leBytesToNat stB, leBytesToInt8 tsB⟩
  else
    none

theorem readBytes_append {l : List Nat} (k : Nat) (r : List Nat)
    (h : l.length = k) : readBytes k (l ++ r) = some (l, r) := by
  subst h
  rw [readBytes, if_pos (by simp)]
  simp

/-- Validity of a Payment record as the claims state it: 32-byte keys,
u64 amount, a payment identifier of at least one and below 2 ^ 32 bytes,
a status byte of the PaymentStatus enum, and an i64 timestamp. -/
def ValidPayment (p : Payment) : Prop :=
  p.payer.length = 32 ∧ p.recipient.length = 32 ∧ p.amount < 2 ^ 64 ∧
    1 ≤ p.payment_id.length ∧ p.payment_id.length < 2 ^ 32 ∧
    (p.status = PaymentStatus.Pending ∨ p.status = PaymentStatus.Completed ∨
      p.status = PaymentStatus.Cancelled) ∧
    -(2 ^ 63) ≤ p.timestamp ∧ p.timestamp < 2 ^ 63

instance (p : Payment) : Decidable (ValidPayment p) := by
  unfold ValidPayment
  infer_instance

theorem decode_encode_payment {p : Payment} (hv : ValidPayment p) :
    decodePayment (encodePayment p) = some p := by
  obtain ⟨hp, hr, ha, _hl1, hl2, _hs, htlo, hthi⟩ := hv
  rw [encodePayment, decodePayment]
  simp only [List.append_assoc]
  rw [readBytes_append 32 _ hp]
  simp only [Option.bind_eq_bind, Option.some_bind]
  rw [readBytes_append 32 _ hr]
  simp only [Option.some_bind]
  rw [readBytes_append 8 _ (natToLEBytes_length 8 p.amount)]
  simp only [Option.some_bind]
  rw [readBytes_append 4 _ (natToLEBytes_length 4 p.payment_id.length)]
  simp only [Option.some_bind]
  rw [leBytesToNat_natToLEBytes_of_lt (by simpa using hl2)]
  rw [readBytes_append p.payment_id.length _ rfl]
  simp only [Option.some_bind]
  rw [show ([p.status] : List Nat) ++ intToLEBytes8 p.timestamp =
    [p.status] ++ (intToLEBytes8 p.timestamp ++ []) by simp]
  rw [readBytes_append (l := [p.status]) 1 _ rfl]
  simp only [Option.some_bind]
  rw [readBytes_append 8 _ (by simp [intToLEBytes8, natToLEBytes_length])]
  simp only [Option.some_bind, if_pos rfl]
  rw [leBytesToInt8_intToLEBytes8 htlo hthi,
    leBytesToNat_natToLEBytes_of_lt (by simpa using ha)]
  simp [leBytesToNat]

/-! ## Program-derived address (getPaymentPDA, lines 111-123)

getPaymentPDA calls PublicKey.findProgramAddress with the seed list
[Buffer.from("payment"), payer.toBuffer(), Buffer.from(paymentId)].
findProgramAddress tries bump seeds 255 down to 1: for each bump it hashes
the concatenation of the seeds, the bump byte, the program id and the
constant marker string "ProgramDerivedAddress" with SHA-256 and returns the
first digest that is not an ed25519 curve point. The hash and the curve
test are cryptographic primitives external to this repository; they enter
the embedding as parameters `hash` and `onCurve`. -/

/-- UTF-8 bytes of the seed constant "payment". -/
def paymentSeed : List Nat := [112, 97, 121, 109, 101, 110, 116]

/-- UTF-8 bytes of the marker constant "ProgramDerivedAddress". -/
def pdaMarker : List Nat :=
  [80, 114, 111, 103, 114, 97, 109, 68, 101, 114, 105, 118, 101, 100,
   65, 100, 100, 114, 101, 115, 115]

/-- The byte buffer hashed for one bump candidate: the three seeds of
getPaymentPDA, the bump byte, the program id, the marker. -/
def pdaHashInput (programId payer pid : List Nat) (bump : Nat) : List Nat :=
  paymentSeed ++ (payer ++ (pid ++ ([bump] ++ (programId ++ pdaMarker))))

/-- Bump search of PublicKey.findProgramAddress: fuel counts the bump
candidate currently tried, from 255 downward; candidate 0 is never tried. -/
def findPDAAux (hash : List Nat → List Nat) (onCurve : List Nat → Bool)
    (programId payer pid : List Nat) : Nat → Option (List Nat × Nat)
  | 0 => none
  | Nat.succ k =>
      let addr := hash (pdaHashInput programId payer pid (Nat.succ k))
      if onCurve addr then findPDAAux hash onCurve programId payer pid k
      else some (addr, Nat.succ k)

/-- Embedding of getPaymentPDA: derive the payment account address for
(payer, paymentId) under the given program id. -/
def getPaymentPDA (hash : List Nat → List Nat) (onCurve : List Nat → Bool)
    (programId payer pid : List Nat) : Option (List Nat × Nat) :=
  findPDAAux hash onCurve programId payer pid 255

theorem findPDAAux_eq_hash {hash onCurve programId payer pid fuel addr bump}
    (h : findPDAAux hash onCurve programId payer pid fuel = some (addr, bump)) :
    addr = hash (pdaHashInput programId payer pid bump) := by
  induction fuel with
  | zero => simp [findPDAAux] at h
  | succ k ih =>
      rw [findPDAAux] at h
      by_cases hc : onCurve (hash (pdaHashInput programId payer pid (Nat.succ k)))
      · rw [if_pos hc] at h
        exact ih h
      · rw [if_neg hc] at h
        obtain ⟨h1, h2⟩ := Prod.mk.injEq .. ▸ Option.some.injEq .. ▸ h
        rw [← h2, ← h1]

theorem pdaHashInput_inj {programId p1 i1 p2 i2 : List Nat} {b1 b2 : Nat}
    (hp1 : p1.length = 32) (hp2 : p2.length = 32)
    (h : pdaHashInput programId p1 i1 b1 = pdaHashInput programId p2 i2 b2) :
    p1 = p2 ∧ i1 = i2 := by
  rw [pdaHashInput, pdaHashInput] at h
  have h1 := List.append_cancel_left h
  have h2 := List.append_inj h1 (hp1.trans hp2.symm)
  refine ⟨h2.1, ?_⟩
  have h3 := h2.2
  have hlen : ([b1] ++ (programId ++ pdaMarker)).length =
      ([b2] ++ (programId ++ pdaMarker)).length := by simp
  exact (List.append_inj' h3 hlen).1

/-! ## Error taxonomy

The client signals failures by throwing Error objects with fixed messages;
the specification names the same failures by kind. Constructors below map
one-to-one onto the message strings of payment-client.ts and the failure
modes of the specification:
`invalidAmount` = "Payment amount must be greater than 0",
`invalidPaymentId` = "Payment ID cannot be empty",
`paymentAlreadyExists` = "Payment with ID ... already exists",
`paymentNotFound` = "Payment with ID ... not found",
`invalidStateTransition` = "Payment is ..., cannot complete/cancel". -/

/-- Failure kinds of the protocol. -/
inductive PaymentError where
  | invalidAmount
  | invalidPaymentId
  | paymentAlreadyExists
  | insufficientFunds
  | paymentNotFound
  | unauthorized
  | recipientMismatch
  | invalidStateTransition
  | insufficientEscrowBalance
  | malformedAccount
  | encodeRangeError
  | addressDerivationError
deriving DecidableEq, Repr

/-! ## Ledger state

Accounts are addressed by their 32-byte public keys; `accounts` holds the
data bytes of existing accounts, `balances` the lamport balances. -/

/-- Global ledger state visible to the client and the processor. -/
structure ChainState where
  accounts : List Nat → Option (List Nat)
  balances : List Nat → Nat

/-! ## Instruction payloads (serializeU64 / serializeString, lines 329-340) -/

/-- Embedding of serializeU64: Buffer.writeBigUInt64LE writes the 8-byte
little-endian encoding and throws a RangeError outside [0, 2 ^ 64). -/
def serializeU64 (value : Int) : Option (List Nat) :=
  if 0 ≤ value ∧ value < 2 ^ 64 then some (natToLEBytes 8 value.toNat)
  else none

/-- Embedding of serializeString: a 4-byte little-endian length followed by
the UTF-8 bytes of the string. -/
def serializeString (s : List Nat) : List Nat :=
  natToLEBytes 4 s.length ++ s

/-- Instruction data built by initializePayment (lines 151-156): opcode 0,
then the u64 amount, then the length-prefixed payment id. -/
def initInstructionData (amount : Int) (pid : List Nat) : Option (List Nat) :=
  (serializeU64 amount).map fun a => 0 :: (a ++ serializeString pid)

/-- Instruction data built by completePayment (line 212): the opcode alone. -/
def completeInstructionData : List Nat := [1]

/-- Instruction data built by cancelPayment (line 261): the opcode alone. -/
def cancelInstructionData : List Nat := [2]

/-! ## Account reference lists (the keys arrays of the three builders) -/

/-- One entry of a keys array of a TransactionInstruction. -/
structure AccountMeta where
  pubkey : List Nat
  isSigner : Bool
  isWritable : Bool
deriving DecidableEq, Repr

/-- The system program public key (32 zero bytes). -/
def systemProgramId : List Nat := List.replicate 32 0

/-- Keys array of the Initialize instruction (lines 158-164). -/
def initKeys (payer pda recipient : List Nat) : List AccountMeta :=
  [⟨payer, true, true⟩, ⟨pda, false, true⟩, ⟨recipient, false, false⟩,
   ⟨systemProgramId, false, false⟩]

/-- Keys array of the Complete instruction (lines 214-220). -/
def completeKeys (payer pda recipient : List Nat) : List AccountMeta :=
  [⟨payer, true, true⟩, ⟨pda, false, true⟩, ⟨recipient, false, true⟩,
   ⟨systemProgramId, false, false⟩]

/-- Keys array of the Cancel instruction (lines 263-267). -/
def cancelKeys (payer pda : List Nat) : List AccountMeta :=
  [⟨payer, true, true⟩, ⟨pda, false, true⟩, ⟨systemProgramId, false, false⟩]

/-! ## Reader functions (getPayment / paymentExists / getPaymentStatus) -/

/-- Embedding of getPayment (lines 292-307): derive the address, fetch the
account, decode its bytes; the surrounding try/catch turns every failure,
including a decode failure, into null. -/
def getPaymentM (hash : List Nat → List Nat) (onCurve : List Nat → Bool)
    (programId : List Nat) (st : ChainState) (payer pid : List Nat) :
    Option Payment :=
  match getPaymentPDA hash onCurve programId payer pid with
  | none => none
  | some (pda, _) =>
      match st.accounts pda with
      | none => none
      | some data => decodePayment data

/-- Embedding of paymentExists (lines 312-315): true iff getPayment is not
null. -/
def paymentExistsM (hash : List Nat → List Nat) (onCurve : List Nat → Bool)
    (programId : List Nat) (st : ChainState) (payer pid : List Nat) : Bool :=
  (getPaymentM hash onCurve programId st payer pid).isSome

/-- Embedding of getPaymentStatus (lines 320-326): the status of the decoded
payment, or null when getPayment is null. -/
def getPaymentStatusM (hash : List Nat → List Nat) (onCurve : List Nat → Bool)
    (programId : List Nat) (st : ChainState) (payer pid : List Nat) :
    Option Nat :=
  (getPaymentM hash onCurve programId st payer pid).map Payment.status

/-! ## State-transition processor

The on-chain program src/lib.rs of this repository is not among the
sources; only its TypeScript caller is. The three transition functions
below are therefore modelled from §4.3 of the specification, precondition
for precondition in the order the specification lists them. -/

/-- Modelled from the spec: Initialize transition of the on-chain processor
(src/lib.rs, absent from the sources) per §4.3 — require payer signature,
positive amount, non-empty payment id, a free derived address and
sufficient payer balance, then create the record with status Pending and
move the amount into escrow. -/
def processInit (st : ChainState) (pda payer recipient : List Nat)
    (amount : Nat) (pid : List Nat) (payerSigned : Bool) (now : Int) :
    ChainState × Option PaymentError :=
  if ¬payerSigned then (st, some .unauthorized)
  else if amount = 0 then (st, some .invalidAmount)
  else if pid = [] then (st, some .invalidPaymentId)
  else if (st.accounts pda).isSome then (st, some .paymentAlreadyExists)
  else if st.balances payer < amount then (st, some .insufficientFunds)
  else
    let pmt : Payment :=
      ⟨payer, recipient, amount, pid, PaymentStatus.Pending, now⟩
    (⟨fun a => if a = pda then some (encodePayment pmt) else st.accounts a,
      fun a =>
        if a = pda then st.balances a + amount
        else if a = payer then st.balances a - amount
        else st.balances a⟩, none)

/-- Modelled from the spec: Complete transition of the on-chain processor
(src/lib.rs, absent from the sources) per §4.3 — require an existing
record, payer signature, that the supplied recipient equal the stored
recipient, status Pending and sufficient escrow balance, then move the
amount to the recipient and set status Completed. -/
def processComplete (st : ChainState) (pda _payer recipient : List Nat)
    (payerSigned : Bool) : ChainState × Option PaymentError :=
  match st.accounts pda with
  | none => (st, some .paymentNotFound)
  | some data =>
      match decodePayment data with
      | none => (st, some .malformedAccount)
      | some p =>
          if ¬payerSigned then (st, some .unauthorized)
          else if recipient ≠ p.recipient then (st, some .recipientMismatch)
          else if p.status ≠ PaymentStatus.Pending then
            (st, some .invalidStateTransition)
          else if st.balances pda < p.amount then
            (st, some .insufficientEscrowBalance)
          else
            let p2 : Payment :=
              ⟨p.payer, p.recipient, p.amount, p.payment_id,
               PaymentStatus.Completed, p.timestamp⟩
            (⟨fun a => if a = pda then some (encodePayment p2)
                else st.accounts a,
              fun a =>
                if a = recipient then st.balances a + p.amount
                else if a = pda then st.balances a - p.amount
                else st.balances a⟩, none)

/-- Modelled from the spec: Cancel transition of the on-chain processor
(src/lib.rs, absent from the sources) per §4.3 — require an existing
record, payer signature and status Pending, then move the amount back to
the payer and set status Cancelled. -/
def processCancel (st : ChainState) (pda payer : List Nat)
    (payerSigned : Bool) : ChainState × Option PaymentError :=
  match st.accounts pda with
  | none => (st, some .paymentNotFound)
  | some data =>
      match decodePayment data with
      | none => (st, some .malformedAccount)
      | some p =>
          if ¬payerSigned then (st, some .unauthorized)
          else if p.status ≠ PaymentStatus.Pending then
            (st, some .invalidStateTransition)
          else
            let p2 : Payment :=
              ⟨p.payer, p.recipient, p.amount, p.payment_id,
               PaymentStatus.Cancelled, p.timestamp⟩
            (⟨fun a => if a = pda then some (encodePayment p2)
                else st.accounts a,
              fun a =>
                if a = payer then st.balances a + p.amount
                else if a = pda then st.balances a - p.amount
                else st.balances a⟩, none)

/-! ## End-to-end client operations

Each operation follows the corresponding client method step for step:
its validations run first, in source order, and each throw aborts the call
before any transaction is submitted, leaving the ledger state unchanged;
only when a transaction is submitted does the processor run,
signed by the payer keypair the client passes to
sendAndConfirmTransaction. -/

/-- Embedding of initializePayment (lines 128-187): validate the amount and
the payment id, derive the address, reject when an account already exists
there, build the instruction data and submit. -/
def initPaymentOp (hash : List Nat → List Nat) (onCurve : List Nat → Bool)
    (programId : List Nat) (st : ChainState) (payer recipient : List Nat)
    (amount : Int) (pid : List Nat) (now : Int) :
    ChainState × Option PaymentError :=
  if amount ≤ 0 then (st, some .invalidAmount)
  else if pid = [] then (st, some .invalidPaymentId)
  else
    match getPaymentPDA hash onCurve programId payer pid with
    | none => (st, some .addressDerivationError)
    | some (pda, _) =>
        if (st.accounts pda).isSome then (st, some .paymentAlreadyExists)
        else
          match initInstructionData amount pid with
          | none => (st, some .encodeRangeError)
          | some _ => processInit st pda payer recipient amount.toNat pid true now

/-- Embedding of completePayment (lines 192-240): derive the address, reject
when getPayment is null or the stored status is not Pending, then submit the
single-opcode instruction to the processor. -/
def completePaymentOp (hash : List Nat → List Nat) (onCurve : List Nat → Bool)
    (programId : List Nat) (st : ChainState) (payer recipient pid : List Nat) :
    ChainState × Option PaymentError :=
  match getPaymentPDA hash onCurve programId payer pid with
  | none => (st, some .addressDerivationError)
  | some (pda, _) =>
      match getPaymentM hash onCurve programId st payer pid with
      | none => (st, some .paymentNotFound)
      | some p =>
          if p.status ≠ PaymentStatus.Pending then
            (st, some .invalidStateTransition)
          else processComplete st pda payer recipient true

/-- Embedding of cancelPayment (lines 245-287): derive the address, reject
when getPayment is null or the stored status is not Pending, then submit the
single-opcode instruction to the processor. -/
def cancelPaymentOp (hash : List Nat → List Nat) (onCurve : List Nat → Bool)
    (programId : List Nat) (st : ChainState) (payer pid : List Nat) :
    ChainState × Option PaymentError :=
  match getPaymentPDA hash onCurve programId payer pid with
  | none => (st, some .addressDerivationError)
  | some (pda, _) =>
      match getPaymentM hash onCurve programId st payer pid with
      | none => (st, some .paymentNotFound)
      | some p =>
          if p.status ≠ PaymentStatus.Pending then
            (st, some .invalidStateTransition)
          else processCancel st pda payer true

/-! ## Account orderings as the specification words them (§6)

These three definitions follow the sentences of the specification, to be
compared with the lists the client builds. -/

/-- Initialize ordering per §6: payer (signer, mutable), derived payment
account (mutable, to be created), recipient (read-only), system allocator. -/
def specInitKeys (payer pda recipient : List Nat) : List AccountMeta :=
  [⟨payer, true, true⟩, ⟨pda, false, true⟩, ⟨recipient, false, false⟩,
   ⟨systemProgramId, false, false⟩]

/-- Complete ordering per §6: payer (signer, mutable), derived payment
account (mutable), recipient (mutable), system allocator. -/
def specCompleteKeys (payer pda recipient : List Nat) : List AccountMeta :=
  [⟨payer, true, true⟩, ⟨pda, false, true⟩, ⟨recipient, false, true⟩,
   ⟨systemProgramId, false, false⟩]

/-- Cancel ordering per §6: payer (signer, mutable), derived payment
account (mutable), system allocator. -/
def specCancelKeys (payer pda : List Nat) : List AccountMeta :=
  [⟨payer, true, true⟩, ⟨pda, false, true⟩, ⟨systemProgramId, false, false⟩]

/-- Persisted layout as §3 and §6 of the specification word it: exactly the
record fields in order — payer, recipient, amount (8-byte little-endian),
payment_id (4-byte little-endian length then the bytes), status (one byte),
timestamp (8-byte little-endian signed) — with nothing in between. -/
def specPaymentLayout (p : Payment) : List Nat :=
  p.payer ++ (p.recipient ++ (natToLEBytes 8 p.amount ++
    ((natToLEBytes 4 p.payment_id.length ++ p.payment_id) ++
      ([p.status] ++ intToLEBytes8 p.timestamp))))

/-! ## Concrete sample data shared by the evaluation theorems -/

/-- Sample payer key. -/
def samplePayer : List Nat := List.replicate 32 1

/-- Sample recipient key. -/
def sampleRecipient : List Nat := List.replicate 32 2

/-- A third key, distinct from payer and recipient. -/
def sampleOther : List Nat := List.replicate 32 3

/-- Sample program id. -/
def sampleProgramId : List Nat := List.replicate 32 9

/-- UTF-8 bytes of the payment id "P-1". -/
def sampleId : List Nat := [80, 45, 49]

/-- A valid pending payment record. -/
def samplePayment : Payment :=
  ⟨samplePayer, sampleRecipient, 500000, sampleId, PaymentStatus.Pending,
   1700000000⟩

/-- The same record after cancellation. -/
def samplePaymentDone : Payment :=
  ⟨samplePayer, sampleRecipient, 500000, sampleId, PaymentStatus.Cancelled,
   1700000000⟩

/-- A ledger with no accounts. -/
def emptyChain : ChainState := ⟨fun _ => none, fun _ => 1000000⟩

/-- The derived address of (samplePayer, sampleId) when the hash is the
identity function and no digest lies on the curve. -/
def samplePDA : List Nat := pdaHashInput sampleProgramId samplePayer sampleId 255

/-- A ledger holding exactly one account, the given bytes at samplePDA. -/
def chainWith (d : List Nat) : ChainState :=
  ⟨fun a => if a = samplePDA then some d else none, fun _ => 1000000⟩

/-! ## Claim theorems -/

/-- C3: for every valid Payment record (32-byte payer and recipient,
unsigned 64-bit amount, payment id of at least one byte, status one of
Pending, Completed, Cancelled, signed 64-bit timestamp), decoding the
encoding under the Payment schema returns the record itself. -/
theorem payment_codec_roundtrip (p : Payment) (hv : ValidPayment p) :
    decodePayment (encodePayment p) = some p :=
  decode_encode_payment hv

/-- Witness for C3 at a concrete valid record. -/
theorem payment_codec_roundtrip_witness :
    ValidPayment samplePayment ∧
      decodePayment (encodePayment samplePayment) = some samplePayment :=
  ⟨by decide, payment_codec_roundtrip samplePayment (by decide)⟩

/-- C2: getPaymentPDA is a pure function of payer, payment id and program
identity — calls with equal inputs return equal addresses — and, whenever
the underlying SHA-256 digest map is collision-free on its inputs, distinct
(payer, payment_id) pairs receive distinct addresses. -/
theorem getPaymentPDA_deterministic_and_injective
    (hash : List Nat → List Nat) (onCurve : List Nat → Bool)
    (programId p1 i1 p2 i2 a1 a2 : List Nat) (b1 b2 : Nat)
    (hinj : Function.Injective hash)
    (hp1 : p1.length = 32) (hp2 : p2.length = 32)
    (h1 : getPaymentPDA hash onCurve programId p1 i1 = some (a1, b1))
    (h2 : getPaymentPDA hash onCurve programId p2 i2 = some (a2, b2)) :
    (p1 = p2 → i1 = i2 → a1 = a2) ∧ ((p1, i1) ≠ (p2, i2) → a1 ≠ a2) := by
  constructor
  · intro hp hi
    subst hp
    subst hi
    rw [h1] at h2
    exact (Prod.mk.injEq .. ▸ Option.some.injEq .. ▸ h2).1
  · intro hne heq
    have e1 := findPDAAux_eq_hash h1
    have e2 := findPDAAux_eq_hash h2
    rw [e1, e2] at heq
    have hin := hinj heq
    have hpair := pdaHashInput_inj hp1 hp2 hin
    exact hne (by rw [hpair.1, hpair.2])

/-- Witness for C2: with the identity digest map, the derived addresses of
the ids "1" and "2" under the sample payer differ. -/
theorem getPaymentPDA_deterministic_and_injective_witness :
    pdaHashInput sampleProgramId samplePayer [49] 255 ≠
      pdaHashInput sampleProgramId samplePayer [50] 255 := by
  have h := getPaymentPDA_deterministic_and_injective id (fun _ => false)
    sampleProgramId samplePayer [49] samplePayer [50]
    (pdaHashInput sampleProgramId samplePayer [49] 255)
    (pdaHashInput sampleProgramId samplePayer [50] 255) 255 255
    (fun _ _ hx => hx) (by decide) (by decide) rfl rfl
  exact h.2 (by decide)

/-- C1: when the stored record is pending with recipient R and Complete is
invoked with a recipient argument different from R, the operation fails
with RecipientMismatch, the ledger is returned unchanged — so no balance
moves — and the stored status is still Pending. -/
theorem complete_recipient_mismatch_rejected
    (hash : List Nat → List Nat) (onCurve : List Nat → Bool)
    (programId : List Nat) (st : ChainState)
    (payer recipientArg pid pda data : List Nat) (bump : Nat) (p : Payment)
    (hpda : getPaymentPDA hash onCurve programId payer pid = some (pda, bump))
    (hacc : st.accounts pda = some data)
    (hdec : decodePayment data = some p)
    (hpend : p.status = PaymentStatus.Pending)
    (hne : recipientArg ≠ p.recipient) :
    completePaymentOp hash onCurve programId st payer recipientArg pid =
        (st, some PaymentError.recipientMismatch) ∧
      getPaymentStatusM hash onCurve programId st payer pid =
        some PaymentStatus.Pending := by
  have hget : getPaymentM hash onCurve programId st payer pid = some p := by
    rw [getPaymentM, hpda]
    simp only [hacc, hdec]
  constructor
  · rw [completePaymentOp, hpda]
    rw [hget]
    simp [hpend, processComplete, hacc, hdec, hne]
  · rw [getPaymentStatusM, hget]
    simp [hpend]

/-- Witness for C1 at a concrete pending record and a third-party
recipient argument. -/
theorem complete_recipient_mismatch_rejected_witness :
    completePaymentOp id (fun _ => false) sampleProgramId
        (chainWith (encodePayment samplePayment)) samplePayer sampleOther
        sampleId =
      (chainWith (encodePayment samplePayment),
        some PaymentError.recipientMismatch) ∧
    getPaymentStatusM id (fun _ => false) sampleProgramId
        (chainWith (encodePayment samplePayment)) samplePayer sampleId =
      some PaymentStatus.Pending :=
  complete_recipient_mismatch_rejected id (fun _ => false) sampleProgramId
    (chainWith (encodePayment samplePayment)) samplePayer sampleOther
    sampleId samplePDA (encodePayment samplePayment) 255 samplePayment
    rfl (by simp [chainWith]) (by decide) rfl (by decide)

/-- C7: when an account already exists at the derived address of
(payer, payment_id), a second Initialize with the same pair fails with
PaymentAlreadyExists and returns the ledger unchanged — no funds move and
the existing record is untouched. -/
theorem init_duplicate_rejected
    (hash : List Nat → List Nat) (onCurve : List Nat → Bool)
    (programId : List Nat) (st : ChainState)
    (payer recipient pid pda data : List Nat) (bump : Nat)
    (amount : Int) (now : Int)
    (hpos : 0 < amount) (hpid : pid ≠ [])
    (hpda : getPaymentPDA hash onCurve programId payer pid = some (pda, bump))
    (hacc : st.accounts pda = some data) :
    initPaymentOp hash onCurve programId st payer recipient amount pid now =
      (st, some PaymentError.paymentAlreadyExists) := by
  rw [initPaymentOp, if_neg (by omega)]
  rw [if_neg hpid, hpda]
  simp [hacc]

/-- Witness for C7 at a concrete occupied address. -/
theorem init_duplicate_rejected_witness :
    initPaymentOp id (fun _ => false) sampleProgramId
        (chainWith (encodePayment samplePayment)) samplePayer
        sampleRecipient 500000 sampleId 1700000000 =
      (chainWith (encodePayment samplePayment),
        some PaymentError.paymentAlreadyExists) :=
  init_duplicate_rejected id (fun _ => false) sampleProgramId
    (chainWith (encodePayment samplePayment)) samplePayer sampleRecipient
    sampleId samplePDA (encodePayment samplePayment) 255 500000 1700000000
    (by decide) (by decide) rfl (by simp [chainWith])

/-- C8: with no account at the derived address both Complete and Cancel
fail with PaymentNotFound; with a stored record whose status is not
Pending both fail with InvalidStateTransition; in each case the ledger is
returned unchanged. -/
theorem complete_cancel_guard_errors
    (hash : List Nat → List Nat) (onCurve : List Nat → Bool)
    (programId payer recipient pid pda data : List Nat) (bump : Nat)
    (st1 st2 : ChainState) (p : Payment)
    (hpda : getPaymentPDA hash onCurve programId payer pid = some (pda, bump))
    (h1 : st1.accounts pda = none)
    (h2 : st2.accounts pda = some data)
    (hdec : decodePayment data = some p)
    (hnp : p.status ≠ PaymentStatus.Pending) :
    completePaymentOp hash onCurve programId st1 payer recipient pid =
        (st1, some PaymentError.paymentNotFound) ∧
      cancelPaymentOp hash onCurve programId st1 payer pid =
        (st1, some PaymentError.paymentNotFound) ∧
      completePaymentOp hash onCurve programId st2 payer recipient pid =
        (st2, some PaymentError.invalidStateTransition) ∧
      cancelPaymentOp hash onCurve programId st2 payer pid =
        (st2, some PaymentError.invalidStateTransition) := by
  have hget1 : getPaymentM hash onCurve programId st1 payer pid = none := by
    rw [getPaymentM, hpda]
    simp only [h1]
  have hget2 : getPaymentM hash onCurve programId st2 payer pid = some p := by
    rw [getPaymentM, hpda]
    simp only [h2, hdec]
  refine ⟨?_, ?_, ?_, ?_⟩
  · rw [completePaymentOp, hpda, hget1]
  · rw [cancelPaymentOp, hpda, hget1]
  · rw [completePaymentOp, hpda, hget2]
    simp [hnp]
  · rw [cancelPaymentOp, hpda, hget2]
    simp [hnp]

/-- Witness for C8 on the empty ledger and on a ledger holding a cancelled
record. -/
theorem complete_cancel_guard_errors_witness :
    completePaymentOp id (fun _ => false) sampleProgramId emptyChain
        samplePayer sampleRecipient sampleId =
      (emptyChain, some PaymentError.paymentNotFound) ∧
    cancelPaymentOp id (fun _ => false) sampleProgramId emptyChain
        samplePayer sampleId =
      (emptyChain, some PaymentError.paymentNotFound) ∧
    completePaymentOp id (fun _ => false) sampleProgramId
        (chainWith (encodePayment samplePaymentDone)) samplePayer
        sampleRecipient sampleId =
      (chainWith (encodePayment samplePaymentDone),
        some PaymentError.invalidStateTransition) ∧
    cancelPaymentOp id (fun _ => false) sampleProgramId
        (chainWith (encodePayment samplePaymentDone)) samplePayer sampleId =
      (chainWith (encodePayment samplePaymentDone),
        some PaymentError.invalidStateTransition) :=
  complete_cancel_guard_errors id (fun _ => false) sampleProgramId
    samplePayer sampleRecipient sampleId samplePDA
    (encodePayment samplePaymentDone) 255 emptyChain
    (chainWith (encodePayment samplePaymentDone)) samplePaymentDone
    rfl rfl (by simp [chainWith]) (by decide) (by decide)

theorem take_append_of_len {l : List Nat} {k : Nat} (r : List Nat)
    (h : l.length = k) : (l ++ r).take k = l := by
  subst h
  simp

theorem drop_append_of_len {l : List Nat} {k : Nat} (r : List Nat)
    (h : l.length = k) : (l ++ r).drop k = r := by
  subst h
  simp

/-- C9 counterexample: called with amount 0 and an empty payment id at the
same time, Initialize fails with InvalidAmount, not with InvalidPaymentId,
because the client checks the amount first (lines 136-141). -/
theorem init_validation_order_counterexample :
    (initPaymentOp id (fun _ => false) sampleProgramId emptyChain samplePayer
        sampleRecipient 0 [] 0).2 = some PaymentError.invalidAmount ∧
      some PaymentError.invalidAmount ≠ some PaymentError.invalidPaymentId :=
  ⟨rfl, by decide⟩

/-- C9 (amended): every Initialize call with amount ≤ 0 fails with
InvalidAmount, and every Initialize call with positive amount and an empty
payment_id fails with InvalidPaymentId; in both cases no instruction is
submitted and the ledger is returned unchanged. -/
theorem init_input_validation
    (hash : List Nat → List Nat) (onCurve : List Nat → Bool)
    (programId : List Nat) (st : ChainState) (payer recipient : List Nat)
    (a1 a2 : Int) (pid : List Nat) (now : Int)
    (h1 : a1 ≤ 0) (h2 : 0 < a2) :
    initPaymentOp hash onCurve programId st payer recipient a1 pid now =
        (st, some PaymentError.invalidAmount) ∧
      initPaymentOp hash onCurve programId st payer recipient a2 [] now =
        (st, some PaymentError.invalidPaymentId) := by
  constructor
  · rw [initPaymentOp, if_pos h1]
  · rw [initPaymentOp, if_neg (by omega), if_pos rfl]

/-- Witness for C9 (amended) at amount 0 and at amount 1 with the empty id. -/
theorem init_input_validation_witness :
    initPaymentOp id (fun _ => false) sampleProgramId emptyChain samplePayer
        sampleRecipient 0 sampleId 0 =
      (emptyChain, some PaymentError.invalidAmount) ∧
    initPaymentOp id (fun _ => false) sampleProgramId emptyChain samplePayer
        sampleRecipient 1 [] 0 =
      (emptyChain, some PaymentError.invalidPaymentId) :=
  init_input_validation id (fun _ => false) sampleProgramId emptyChain
    samplePayer sampleRecipient 0 1 sampleId 0 (by decide) (by decide)

/-- C10: getPayment is a total reader that yields null both when the
derived address holds no account and when the stored bytes fail to decode
as a Payment record, making the two cases indistinguishable; paymentExists
is false exactly when getPayment is null, and getPaymentStatus is null
exactly when getPayment is null. -/
theorem getPayment_null_behavior
    (hash : List Nat → List Nat) (onCurve : List Nat → Bool)
    (programId payer pid pda data : List Nat) (bump : Nat)
    (st1 st2 : ChainState)
    (hpda : getPaymentPDA hash onCurve programId payer pid = some (pda, bump))
    (h1 : st1.accounts pda = none)
    (h2 : st2.accounts pda = some data)
    (hbad : decodePayment data = none) :
    getPaymentM hash onCurve programId st1 payer pid = none ∧
      getPaymentM hash onCurve programId st2 payer pid = none ∧
      ∀ st : ChainState,
        (paymentExistsM hash onCurve programId st payer pid = false ↔
          getPaymentM hash onCurve programId st payer pid = none) ∧
        (getPaymentStatusM hash onCurve programId st payer pid = none ↔
          getPaymentM hash onCurve programId st payer pid = none) := by
  refine ⟨?_, ?_, ?_⟩
  · rw [getPaymentM, hpda]
    simp only [h1]
  · rw [getPaymentM, hpda]
    simp only [h2, hbad]
  · intro st
    cases hgo : getPaymentM hash onCurve programId st payer pid <;>
      simp [paymentExistsM, getPaymentStatusM, hgo]

/-- Witness for C10 on the empty ledger and on a ledger holding three
bytes no Payment record decodes from. -/
theorem getPayment_null_behavior_witness :
    getPaymentM id (fun _ => false) sampleProgramId emptyChain samplePayer
        sampleId = none ∧
    getPaymentM id (fun _ => false) sampleProgramId (chainWith [7, 7, 7])
        samplePayer sampleId = none ∧
    paymentExistsM id (fun _ => false) sampleProgramId (chainWith [7, 7, 7])
        samplePayer sampleId = false ∧
    getPaymentStatusM id (fun _ => false) sampleProgramId (chainWith [7, 7, 7])
        samplePayer sampleId = none := by
  have h := getPayment_null_behavior id (fun _ => false) sampleProgramId
    samplePayer sampleId samplePDA [7, 7, 7] 255 emptyChain
    (chainWith [7, 7, 7]) rfl rfl (by simp [chainWith]) (by decide)
  exact ⟨h.1, h.2.1, ((h.2.2 (chainWith [7, 7, 7])).1).mpr h.2.1,
    ((h.2.2 (chainWith [7, 7, 7])).2).mpr h.2.1⟩

/-- C4: the Initialize instruction data is the opcode byte 0 followed by
the 8-byte little-endian unsigned amount and the 4-byte little-endian
length prefix with the UTF-8 bytes of the payment id — witnessed by
reading the segments back — while the Complete and Cancel instruction data
are exactly the single opcode bytes 1 and 2. -/
theorem instruction_data_formats (a : Int) (s : List Nat)
    (h1 : 0 < a) (h2 : a < 2 ^ 64) (h3 : s.length < 2 ^ 32) :
    (∃ d, initInstructionData a s = some d ∧
      d = 0 :: (natToLEBytes 8 a.toNat ++ (natToLEBytes 4 s.length ++ s)) ∧
      d.length = 13 + s.length ∧
      leBytesToNat ((d.drop 1).take 8) = a.toNat ∧
      leBytesToNat (((d.drop 1).drop 8).take 4) = s.length ∧
      ((d.drop 1).drop 8).drop 4 = s) ∧
    completeInstructionData = [1] ∧ cancelInstructionData = [2] := by
  have hta : a.toNat < 2 ^ 64 := by omega
  refine ⟨⟨0 :: (natToLEBytes 8 a.toNat ++ (natToLEBytes 4 s.length ++ s)),
    ?_, rfl, ?_, ?_, ?_, ?_⟩, rfl, rfl⟩
  · rw [initInstructionData, serializeU64, if_pos ⟨le_of_lt h1, h2⟩]
    rfl
  · simp [natToLEBytes_length]
    omega
  · rw [List.drop_one, List.tail_cons,
      take_append_of_len _ (natToLEBytes_length 8 a.toNat),
      leBytesToNat_natToLEBytes_of_lt (by simpa using hta)]
  · rw [List.drop_one, List.tail_cons,
      drop_append_of_len _ (natToLEBytes_length 8 a.toNat),
      take_append_of_len _ (natToLEBytes_length 4 s.length),
      leBytesToNat_natToLEBytes_of_lt (by simpa using h3)]
  · rw [List.drop_one, List.tail_cons,
      drop_append_of_len _ (natToLEBytes_length 8 a.toNat),
      drop_append_of_len _ (natToLEBytes_length 4 s.length)]

/-- Witness for C4 at amount 500000 and the id "P-1". -/
theorem instruction_data_formats_witness :
    (∃ d, initInstructionData 500000 sampleId = some d ∧
      d = 0 :: (natToLEBytes 8 (Int.toNat 500000) ++
        (natToLEBytes 4 sampleId.length ++ sampleId)) ∧
      d.length = 13 + sampleId.length ∧
      leBytesToNat ((d.drop 1).take 8) = Int.toNat 500000 ∧
      leBytesToNat (((d.drop 1).drop 8).take 4) = sampleId.length ∧
      ((d.drop 1).drop 8).drop 4 = sampleId) ∧
    completeInstructionData = [1] ∧ cancelInstructionData = [2] :=
  instruction_data_formats 500000 sampleId (by decide) (by decide) (by decide)

/-- C5: the account lists the client builds for Initialize, Complete and
Cancel coincide with the positional orderings the contract specifies. -/
theorem account_reference_orderings (payer pda recipient : List Nat) :
    initKeys payer pda recipient = specInitKeys payer pda recipient ∧
      completeKeys payer pda recipient = specCompleteKeys payer pda recipient ∧
      cancelKeys payer pda = specCancelKeys payer pda :=
  ⟨rfl, rfl, rfl⟩

/-- C6: the encoded bytes of a valid Payment record are exactly its fields
in declaration order with their own encodings and no padding: the layout
equals the specification layout, the total length is exactly the sum of
the field widths, and the payer, recipient and timestamp segments sit at
their computed offsets. -/
theorem payment_byte_layout (p : Payment)
    (hp : p.payer.length = 32) (hr : p.recipient.length = 32) :
    encodePayment p = specPaymentLayout p ∧
      (encodePayment p).length = 85 + p.payment_id.length ∧
      (encodePayment p).take 32 = p.payer ∧
      ((encodePayment p).drop 32).take 32 = p.recipient ∧
      (encodePayment p).drop (77 + p.payment_id.length) =
        intToLEBytes8 p.timestamp := by
  have hassoc : encodePayment p = p.payer ++ (p.recipient ++
      (natToLEBytes 8 p.amount ++ (natToLEBytes 4 p.payment_id.length ++
        (p.payment_id ++ ([p.status] ++ intToLEBytes8 p.timestamp))))) := by
    rw [encodePayment]
    simp [List.append_assoc]
  refine ⟨?_, ?_, ?_, ?_, ?_⟩
  · rw [hassoc, specPaymentLayout]
    simp [List.append_assoc]
  · rw [encodePayment]
    simp [natToLEBytes_length, intToLEBytes8, hp, hr]
    omega
  · rw [hassoc, take_append_of_len _ hp]
  · rw [hassoc, drop_append_of_len _ hp, take_append_of_len _ hr]
  · have hgrp : encodePayment p = (p.payer ++ p.recipient ++
        natToLEBytes 8 p.amount ++ natToLEBytes 4 p.payment_id.length ++
        p.payment_id ++ [p.status]) ++ intToLEBytes8 p.timestamp := by
      rw [encodePayment]
    have hlen : (p.payer ++ p.recipient ++ natToLEBytes 8 p.amount ++
        natToLEBytes 4 p.payment_id.length ++ p.payment_id ++
        [p.status]).length = 77 + p.payment_id.length := by
      simp [natToLEBytes_length, hp, hr]
      omega
    rw [hgrp, drop_append_of_len _ hlen]

/-- Witness for C6 at a concrete valid record. -/
theorem payment_byte_layout_witness :
    encodePayment samplePayment = specPaymentLayout samplePayment ∧
      (encodePayment samplePayment).length =
        85 + samplePayment.payment_id.length ∧
      (encodePayment samplePayment).take 32 = samplePayment.payer ∧
      ((encodePayment samplePayment).drop 32).take 32 =
        samplePayment.recipient ∧
      (encodePayment samplePayment).drop
          (77 + samplePayment.payment_id.length) =
        intToLEBytes8 samplePayment.timestamp :=
  payment_byte_layout samplePayment (by decide) (by decide)

end X402
